import Mathlib

/-!
Shallow embedding of physfs_unicode.c (BeamNG/physfs): the UTF-8 codepoint
decoder, the codepoint encoder, the transcoding entry points and the
case-fold based case-insensitive string comparators, together with proofs
of the specified properties.

Modelling conventions:
* A C string cursor is the list of bytes from the current position up to
  (not including) the terminating zero; a read at or past the end of the
  list yields 0, matching the terminator byte the C buffer always holds.
  The decoder never reads past the first zero byte, so this is faithful.
* Machine integers are Nat with explicit reductions: byte reads take
  `% 256` (the PHYSFS_uint8 cast), UTF-16 element reads `% 2 ^ 16`,
  UCS-4 element reads `% 2 ^ 32`, and the PHYSFS_uint64 length argument
  wraps `% 2 ^ 64` exactly where the C arithmetic wraps.
* A destination buffer is modelled by the list of elements the function
  writes, in order; an empty list means the function wrote nothing.
* C loops are embedded as fuel recursion; every loop here consumes at
  least one source element per iteration (or exits), so fuel
  `src.length + 1` makes the embedding exact.
-/

namespace Physfs

/-- Sentinel returned by the decoder when there are bogus bits in the
stream: UNICODE_BOGUS_CHAR_VALUE in physfs_unicode.c, 0xFFFFFFFF. -/
def UNICODE_BOGUS_CHAR_VALUE : Nat := 0xFFFFFFFF

/-- Placeholder codepoint used in place of bogus input:
UNICODE_BOGUS_CHAR_CODEPOINT in physfs_unicode.c, the question mark. -/
def UNICODE_BOGUS_CHAR_CODEPOINT : Nat := 0x3F

/-- Reading byte i of the source cursor; the (PHYSFS_uint8) cast is % 256
and reads at or past the end of the list see the terminating zero. -/
def byteAt (s : List Nat) (i : Nat) : Nat := s.getD i 0 % 256

/-- Two-octet branch of utf8codepoint (physfs_unicode.c lines 62-74),
entered when the lead byte is in [192, 224). -/
def utf8codepointTwoOctets (s : List Nat) : Nat × List Nat :=
  let octet := byteAt s 0 - (128 + 64)
  let octet2 := byteAt s 1
  if octet2 &&& (128 + 64) ≠ 128 then (UNICODE_BOGUS_CHAR_VALUE, s.drop 1)
  else
    let retval := (octet <<< 6) ||| (octet2 - 128)
    if 0x80 ≤ retval ∧ retval ≤ 0x7FF then (retval, s.drop 2)
    else (UNICODE_BOGUS_CHAR_VALUE, s.drop 2)

/-- Three-octet branch of utf8codepoint (lines 76-107), lead byte in
[224, 240); it rejects seven reserved boundary values and anything
outside [0x800, 0xFFFD]. -/
def utf8codepointThreeOctets (s : List Nat) : Nat × List Nat :=
  let octet := byteAt s 0 - (128 + 64 + 32)
  let octet2 := byteAt s 1
  if octet2 &&& (128 + 64) ≠ 128 then (UNICODE_BOGUS_CHAR_VALUE, s.drop 1)
  else
    let octet3 := byteAt s 2
    if octet3 &&& (128 + 64) ≠ 128 then (UNICODE_BOGUS_CHAR_VALUE, s.drop 1)
    else
      let retval := ((octet <<< 12) ||| ((octet2 - 128) <<< 6)) ||| (octet3 - 128)
      if retval = 0xD800 ∨ retval = 0xDB7F ∨ retval = 0xDB80 ∨ retval = 0xDBFF ∨
          retval = 0xDC00 ∨ retval = 0xDF80 ∨ retval = 0xDFFF then
        (UNICODE_BOGUS_CHAR_VALUE, s.drop 3)
      else if 0x800 ≤ retval ∧ retval ≤ 0xFFFD then (retval, s.drop 3)
      else (UNICODE_BOGUS_CHAR_VALUE, s.drop 3)

/-- Four-octet branch of utf8codepoint (lines 109-130), lead byte in
[240, 248). -/
def utf8codepointFourOctets (s : List Nat) : Nat × List Nat :=
  let octet := byteAt s 0 - (128 + 64 + 32 + 16)
  let octet2 := byteAt s 1
  if octet2 &&& (128 + 64) ≠ 128 then (UNICODE_BOGUS_CHAR_VALUE, s.drop 1)
  else
    let octet3 := byteAt s 2
    if octet3 &&& (128 + 64) ≠ 128 then (UNICODE_BOGUS_CHAR_VALUE, s.drop 1)
    else
      let octet4 := byteAt s 3
      if octet4 &&& (128 + 64) ≠ 128 then (UNICODE_BOGUS_CHAR_VALUE, s.drop 1)
      else
        let retval := (((octet <<< 18) ||| ((octet2 - 128) <<< 12)) |||
            ((octet3 - 128) <<< 6)) ||| (octet4 - 128)
        if 0x10000 ≤ retval ∧ retval ≤ 0x10FFFF then (retval, s.drop 4)
        else (UNICODE_BOGUS_CHAR_VALUE, s.drop 4)

/-- Five-octet branch of utf8codepoint (lines 138-159), lead byte in
[248, 252): the continuation bytes are parsed only to advance the cursor
(one initial increment plus += 4, so 5 in total on success). -/
def utf8codepointFiveOctets (s : List Nat) : Nat × List Nat :=
  if byteAt s 1 &&& (128 + 64) ≠ 128 then (UNICODE_BOGUS_CHAR_VALUE, s.drop 1)
  else if byteAt s 2 &&& (128 + 64) ≠ 128 then (UNICODE_BOGUS_CHAR_VALUE, s.drop 1)
  else if byteAt s 3 &&& (128 + 64) ≠ 128 then (UNICODE_BOGUS_CHAR_VALUE, s.drop 1)
  else if byteAt s 4 &&& (128 + 64) ≠ 128 then (UNICODE_BOGUS_CHAR_VALUE, s.drop 1)
  else (UNICODE_BOGUS_CHAR_VALUE, s.drop 5)

/-- Six-octet branch of utf8codepoint (lines 161-186), lead byte in
[252, 256): on success the source performs one initial increment plus
+= 6, a total cursor advance of 7 bytes, kept verbatim here. -/
def utf8codepointSixOctets (s : List Nat) : Nat × List Nat :=
  if byteAt s 1 &&& (128 + 64) ≠ 128 then (UNICODE_BOGUS_CHAR_VALUE, s.drop 1)
  else if byteAt s 2 &&& (128 + 64) ≠ 128 then (UNICODE_BOGUS_CHAR_VALUE, s.drop 1)
  else if byteAt s 3 &&& (128 + 64) ≠ 128 then (UNICODE_BOGUS_CHAR_VALUE, s.drop 1)
  else if byteAt s 4 &&& (128 + 64) ≠ 128 then (UNICODE_BOGUS_CHAR_VALUE, s.drop 1)
  else if byteAt s 5 &&& (128 + 64) ≠ 128 then (UNICODE_BOGUS_CHAR_VALUE, s.drop 1)
  else (UNICODE_BOGUS_CHAR_VALUE, s.drop 7)

/-- Decoder utf8codepoint of physfs_unicode.c. It returns the decoded
value (or the bogus sentinel) and the advanced cursor; where the C code
advances the char pointer k times, the model drops k bytes. The lead-byte
dispatch follows the else-if chain of the source; each multi-octet branch
is its own definition above. -/
def utf8codepoint (s : List Nat) : Nat × List Nat :=
  let octet := byteAt s 0
  if octet = 0 then
    (0, s)
  else if octet < 128 then
    (octet, s.drop 1)
  else if octet < 192 then
    (UNICODE_BOGUS_CHAR_VALUE, s.drop 1)
  else if octet < 224 then
    utf8codepointTwoOctets s
  else if octet < 240 then
    utf8codepointThreeOctets s
  else if octet < 248 then
    utf8codepointFourOctets s
  else if octet < 252 then
    utf8codepointFiveOctets s
  else
    utf8codepointSixOctets s

/-- Encoder utf8fromcodepoint of physfs_unicode.c: encodes one codepoint
into a capacity-bounded buffer, returning the bytes written and the
updated remaining capacity (the C code advances dst and updates len in
place). Each (char) store is a % 256 reduction. -/
def utf8fromcodepoint (cp0 : Nat) (len : Nat) : List Nat × Nat :=
  if len = 0 then ([], len)
  else
    let c0 := cp0 % 2 ^ 32
    let cp :=
      if 0x10FFFF < c0 then UNICODE_BOGUS_CHAR_CODEPOINT
      else if c0 = 0xFFFE ∨ c0 = 0xFFFF then UNICODE_BOGUS_CHAR_CODEPOINT
      else if c0 = 0xD800 ∨ c0 = 0xDB7F ∨ c0 = 0xDB80 ∨ c0 = 0xDBFF ∨
          c0 = 0xDC00 ∨ c0 = 0xDF80 ∨ c0 = 0xDFFF then UNICODE_BOGUS_CHAR_CODEPOINT
      else c0
    if cp < 0x80 then ([cp % 256], len - 1)
    else if cp < 0x800 then
      if len < 2 then ([], 0)
      else ([((cp >>> 6) ||| 128 ||| 64) % 256,
             ((cp &&& 0x3F) ||| 128) % 256], len - 2)
    else if cp < 0x10000 then
      if len < 3 then ([], 0)
      else ([((cp >>> 12) ||| 128 ||| 64 ||| 32) % 256,
             (((cp >>> 6) &&& 0x3F) ||| 128) % 256,
             ((cp &&& 0x3F) ||| 128) % 256], len - 3)
    else
      if len < 4 then ([], 0)
      else ([((cp >>> 18) ||| 128 ||| 64 ||| 32 ||| 16) % 256,
             (((cp >>> 12) &&& 0x3F) ||| 128) % 256,
             (((cp >>> 6) &&& 0x3F) ||| 128) % 256,
             ((cp &&& 0x3F) ||| 128) % 256], len - 4)

/-- Loop body of PHYSFS_utf8ToUcs4; len counts remaining destination bytes.
Every iteration that recurses consumed at least one source byte, so fuel
src.length + 1 is exact. -/
def ucs4Loop : Nat → List Nat → Nat → List Nat
  | 0, _, _ => []
  | fuel + 1, src, len =>
    if 4 ≤ len then
      let d := utf8codepoint src
      if d.1 = 0 then []
      else
        (if d.1 = UNICODE_BOGUS_CHAR_VALUE then UNICODE_BOGUS_CHAR_CODEPOINT else d.1) ::
          ucs4Loop fuel d.2 (len - 4)
    else []

/-- PHYSFS_utf8ToUcs4 of physfs_unicode.c: the returned list is the sequence
of PHYSFS_uint32 elements the function stores into dst, terminator included.
The initial len -= 4 wraps at 2^64 exactly as the C PHYSFS_uint64 does. -/
def PHYSFS_utf8ToUcs4 (src : List Nat) (len : Nat) : List Nat :=
  ucs4Loop (src.length + 1) src ((len % 2 ^ 64 + 2 ^ 64 - 4) % 2 ^ 64) ++ [0]

/-- Loop body of PHYSFS_utf8ToUcs2; each store is a PHYSFS_uint16 store. -/
def ucs2Loop : Nat → List Nat → Nat → List Nat
  | 0, _, _ => []
  | fuel + 1, src, len =>
    if 2 ≤ len then
      let d := utf8codepoint src
      if d.1 = 0 then []
      else
        let cp := if d.1 = UNICODE_BOGUS_CHAR_VALUE then UNICODE_BOGUS_CHAR_CODEPOINT else d.1
        let cp := if 0xFFFF < cp then UNICODE_BOGUS_CHAR_CODEPOINT else cp
        cp % 2 ^ 16 :: ucs2Loop fuel d.2 (len - 2)
    else []

/-- PHYSFS_utf8ToUcs2 of physfs_unicode.c, destination stores listed in
order, terminator included; len -= 2 wraps at 2^64. -/
def PHYSFS_utf8ToUcs2 (src : List Nat) (len : Nat) : List Nat :=
  ucs2Loop (src.length + 1) src ((len % 2 ^ 64 + 2 ^ 64 - 2) % 2 ^ 64) ++ [0]

/-- Loop body of PHYSFS_utf8ToUtf16: codepoints above 0xFFFF are stored as a
surrogate pair when at least two destination slots beyond the terminator
remain, otherwise the loop stops. -/
def utf16Loop : Nat → List Nat → Nat → List Nat
  | 0, _, _ => []
  | fuel + 1, src, len =>
    if 2 ≤ len then
      let d := utf8codepoint src
      if d.1 = 0 then []
      else
        let cp := if d.1 = UNICODE_BOGUS_CHAR_VALUE then UNICODE_BOGUS_CHAR_CODEPOINT else d.1
        if 0xFFFF < cp then
          if len < 4 then []
          else
            let cpm := cp - 0x10000
            (0xD800 + ((cpm >>> 10) &&& 0x3FF)) :: (0xDC00 + (cpm &&& 0x3FF)) ::
              utf16Loop fuel d.2 (len - 4)
        else cp :: utf16Loop fuel d.2 (len - 2)
    else []

/-- PHYSFS_utf8ToUtf16 of physfs_unicode.c, destination stores listed in
order, terminator included; len -= 2 wraps at 2^64. -/
def PHYSFS_utf8ToUtf16 (src : List Nat) (len : Nat) : List Nat :=
  utf16Loop (src.length + 1) src ((len % 2 ^ 64 + 2 ^ 64 - 2) % 2 ^ 64) ++ [0]

/-- Loop of the UTF8FROMTYPE macro: m is the modulus of the source element
cast (2^8 for Latin-1, 2^16 for UCS-2, 2^32 for UCS-4). -/
def fromTypeLoop (m : Nat) : Nat → List Nat → Nat → List Nat
  | 0, _, _ => []
  | fuel + 1, src, len =>
    if len = 0 then []
    else
      let cp := src.headD 0 % m
      if cp = 0 then []
      else
        let r := utf8fromcodepoint cp len
        r.1 ++ fromTypeLoop m fuel src.tail r.2

/-- PHYSFS_utf8FromUcs4 of physfs_unicode.c (UTF8FROMTYPE at PHYSFS_uint32):
the returned list is the sequence of bytes stored into dst, terminator
included; with len = 0 the macro returns before writing anything. -/
def PHYSFS_utf8FromUcs4 (src : List Nat) (len : Nat) : List Nat :=
  if len % 2 ^ 64 = 0 then []
  else fromTypeLoop (2 ^ 32) (src.length + 1) src (len % 2 ^ 64 - 1) ++ [0]

/-- PHYSFS_utf8FromUcs2 of physfs_unicode.c: the source elements are
PHYSFS_uint16 reads (the PHYSFS_uint64 cast in the macro preserves them). -/
def PHYSFS_utf8FromUcs2 (src : List Nat) (len : Nat) : List Nat :=
  if len % 2 ^ 64 = 0 then []
  else fromTypeLoop (2 ^ 16) (src.length + 1) src (len % 2 ^ 64 - 1) ++ [0]

/-- PHYSFS_utf8FromLatin1 of physfs_unicode.c: each source byte is the
codepoint directly (PHYSFS_uint8 cast). -/
def PHYSFS_utf8FromLatin1 (src : List Nat) (len : Nat) : List Nat :=
  if len % 2 ^ 64 = 0 then []
  else fromTypeLoop (2 ^ 8) (src.length + 1) src (len % 2 ^ 64 - 1) ++ [0]

/-- Loop of PHYSFS_utf8FromUtf16 with its surrogate-pair logic: a high
surrogate peeks at the next element and consumes it only when it is a
valid low surrogate; otherwise (and for a lone low surrogate) the
placeholder is encoded instead. -/
def fromUtf16Loop : Nat → List Nat → Nat → List Nat
  | 0, _, _ => []
  | fuel + 1, src, len =>
    if len = 0 then []
    else
      match src with
      | [] => []
      | c :: rest =>
        let cp := c % 2 ^ 16
        if cp = 0 then []
        else if 0xDC00 ≤ cp ∧ cp ≤ 0xDFFF then
          let r := utf8fromcodepoint UNICODE_BOGUS_CHAR_CODEPOINT len
          r.1 ++ fromUtf16Loop fuel rest r.2
        else if 0xD800 ≤ cp ∧ cp ≤ 0xDBFF then
          let pair := rest.headD 0 % 2 ^ 16
          if pair < 0xDC00 ∨ 0xDFFF < pair then
            let r := utf8fromcodepoint UNICODE_BOGUS_CHAR_CODEPOINT len
            r.1 ++ fromUtf16Loop fuel rest r.2
          else
            let r := utf8fromcodepoint (((cp - 0xD800) <<< 10) ||| (pair - 0xDC00)) len
            r.1 ++ fromUtf16Loop fuel rest.tail r.2
        else
          let r := utf8fromcodepoint cp len
          r.1 ++ fromUtf16Loop fuel rest r.2

/-- PHYSFS_utf8FromUtf16 of physfs_unicode.c: bytes stored into dst in
order, terminator included; with len = 0 it returns before writing. -/
def PHYSFS_utf8FromUtf16 (src : List Nat) (len : Nat) : List Nat :=
  if len % 2 ^ 64 = 0 then []
  else fromUtf16Loop (src.length + 1) src (len % 2 ^ 64 - 1) ++ [0]

/-- CaseFoldMapping of physfs_unicode.c; the C field named from is fromCP
here (from is reserved in Lean). -/
structure CaseFoldMapping where
  fromCP : Nat
  to0 : Nat
  to1 : Nat
  to2 : Nat
deriving DecidableEq

/-- Function locate_case_fold_mapping of physfs_unicode.c, parameterized by
the bucket array case_fold_hash whose data lives in physfs_casefolding.h
(not part of this repository): hash the codepoint, scan the bucket for the
first entry with a matching source codepoint, and fall back to the identity
fold when there is none. -/
def locate_case_fold_mapping (buckets : Nat → List CaseFoldMapping) (cp : Nat) :
    Nat × Nat × Nat :=
  let hashed := (cp ^^^ (cp >>> 8)) &&& 0xFF
  match (buckets hashed).find? (fun m => m.fromCP = cp) with
  | some m => (m.to0, m.to1, m.to2)
  | none => (cp, 0, 0)

/-- Comparator utf8codepointcmp of physfs_unicode.c: equal codepoints match
immediately, otherwise the two fold triples are compared slot by slot. -/
def utf8codepointcmp (buckets : Nat → List CaseFoldMapping) (cp1 cp2 : Nat) : Int :=
  if cp1 = cp2 then 0
  else
    let folded1 := locate_case_fold_mapping buckets cp1
    let folded2 := locate_case_fold_mapping buckets cp2
    if folded1.1 < folded2.1 then -1
    else if folded2.1 < folded1.1 then 1
    else if folded1.2.1 < folded2.2.1 then -1
    else if folded2.2.1 < folded1.2.1 then 1
    else if folded1.2.2 < folded2.2.2 then -1
    else if folded2.2.2 < folded1.2.2 then 1
    else 0

/-- Loop of __PHYSFS_utf8stricmp; a recursing iteration consumed at least
one byte of the first string, so fuel s1.length + 1 is exact. -/
def stricmpLoop (buckets : Nat → List CaseFoldMapping) :
    Nat → List Nat → List Nat → Int
  | 0, _, _ => 0
  | fuel + 1, s1, s2 =>
    let d1 := utf8codepoint s1
    let d2 := utf8codepoint s2
    let rc := utf8codepointcmp buckets d1.1 d2.1
    if rc ≠ 0 then rc
    else if d1.1 = 0 then 0
    else stricmpLoop buckets fuel d1.2 d2.2

/-- Function __PHYSFS_utf8stricmp of physfs_unicode.c, parameterized by the
case-fold bucket array. -/
def utf8stricmp (buckets : Nat → List CaseFoldMapping) (s1 s2 : List Nat) : Int :=
  stricmpLoop buckets (s1.length + 1) s1 s2

/-- Function __PHYSFS_utf8strnicmp of physfs_unicode.c: the loop runs at
most n times, decrementing n each iteration, so it recurses on n. -/
def utf8strnicmp (buckets : Nat → List CaseFoldMapping) (s1 s2 : List Nat) :
    Nat → Int
  | 0 => 0
  | n + 1 =>
    let d1 := utf8codepoint s1
    let d2 := utf8codepoint s2
    let rc := utf8codepointcmp buckets d1.1 d2.1
    if rc ≠ 0 then rc
    else if d1.1 = 0 then 0
    else utf8strnicmp buckets d1.2 d2.2 n

/-- Modelled from the spec: the raw data of the case-fold table
(physfs_casefolding.h, an external compiled asset) is not in the
repository. Per the data model, entries (from, to0, to1, to2) sit in 256
hash buckets keyed by (cp ^ (cp >> 8)) & 0xFF and absence means identity;
this concrete instance carries the ASCII simple folds A-Z to a-z, the
folds the specification itself appeals to. -/
def asciiEntries : List CaseFoldMapping :=
  (List.range 26).map (fun i => ⟨65 + i, 97 + i, 0, 0⟩)

/-- Modelled from the spec: bucket array holding asciiEntries, each entry
in the bucket selected by the specified hash. -/
def asciiFoldBuckets (i : Nat) : List CaseFoldMapping :=
  asciiEntries.filter (fun m => (m.fromCP ^^^ (m.fromCP >>> 8)) &&& 0xFF = i)

/-- Comparator the specification describes in claim C3: like utf8stricmp
but with each decoded bogus sentinel replaced by the placeholder before
comparing. This definition follows the claim wording, not the source; it
exists to be compared against the embedding of the source. -/
def stricmpReplacingLoop (buckets : Nat → List CaseFoldMapping) :
    Nat → List Nat → List Nat → Int
  | 0, _, _ => 0
  | fuel + 1, s1, s2 =>
    let d1 := utf8codepoint s1
    let d2 := utf8codepoint s2
    let cp1 := if d1.1 = UNICODE_BOGUS_CHAR_VALUE then UNICODE_BOGUS_CHAR_CODEPOINT else d1.1
    let cp2 := if d2.1 = UNICODE_BOGUS_CHAR_VALUE then UNICODE_BOGUS_CHAR_CODEPOINT else d2.1
    let rc := utf8codepointcmp buckets cp1 cp2
    if rc ≠ 0 then rc
    else if cp1 = 0 then 0
    else stricmpReplacingLoop buckets fuel d1.2 d2.2

/-- Wrapper for stricmpReplacingLoop with the same fuel as utf8stricmp. -/
def utf8stricmpReplacing (buckets : Nat → List CaseFoldMapping) (s1 s2 : List Nat) : Int :=
  stricmpReplacingLoop buckets (s1.length + 1) s1 s2

/-- Width in bytes of the canonical UTF-8 form the encoder selects for a
codepoint, following the range split of utf8fromcodepoint. -/
def utf8EncodedWidth (cp : Nat) : Nat :=
  if cp < 0x80 then 1 else if cp < 0x800 then 2 else if cp < 0x10000 then 3 else 4

/-! ### Arithmetic bridge lemmas for the bit operations of the source -/

lemma lor_small (i a b : Nat) (h : b < 2 ^ i) : (2 ^ i * a) ||| b = 2 ^ i * a + b :=
  (Nat.mul_add_lt_is_or h a).symm

lemma and63 (x : Nat) : x &&& 63 = x % 64 := by
  have h := Nat.and_pow_two_sub_one_eq_mod x 6
  norm_num at h
  exact h

lemma and1023 (x : Nat) : x &&& 1023 = x % 1024 := by
  have h := Nat.and_pow_two_sub_one_eq_mod x 10
  norm_num at h
  exact h

set_option maxRecDepth 4096 in
lemma and192_iff : ∀ y < 256, (y &&& 192 = 128 ↔ 128 ≤ y ∧ y < 192) := by decide

lemma or128 {x : Nat} (h : x < 128) : x ||| 128 = 128 + x := by
  rw [Nat.lor_comm]
  have h2 := lor_small 7 1 x h
  norm_num at h2
  exact h2

lemma or192 {x : Nat} (h : x < 64) : x ||| 128 ||| 64 = 192 + x := by
  rw [Nat.lor_assoc]
  have hc : (128 ||| 64 : Nat) = 192 := by decide
  rw [hc, Nat.lor_comm]
  have h2 := lor_small 6 3 x h
  norm_num at h2
  exact h2

lemma or224 {x : Nat} (h : x < 32) : x ||| 128 ||| 64 ||| 32 = 224 + x := by
  rw [Nat.lor_assoc, Nat.lor_assoc]
  have hc : (128 ||| (64 ||| 32) : Nat) = 224 := by decide
  rw [hc, Nat.lor_comm]
  have h2 := lor_small 5 7 x h
  norm_num at h2
  exact h2

lemma or240 {x : Nat} (h : x < 16) : x ||| 128 ||| 64 ||| 32 ||| 16 = 240 + x := by
  rw [Nat.lor_assoc, Nat.lor_assoc, Nat.lor_assoc]
  have hc : (128 ||| (64 ||| (32 ||| 16)) : Nat) = 240 := by decide
  rw [hc, Nat.lor_comm]
  have h2 := lor_small 4 15 x h
  norm_num at h2
  exact h2

lemma comb2 {a b : Nat} (hb : b < 64) : (a <<< 6) ||| b = 64 * a + b := by
  rw [Nat.shiftLeft_eq, Nat.mul_comm, lor_small 6 a b (by omega)]
  norm_num

lemma comb3 {a b c : Nat} (hb : b < 64) (hc : c < 64) :
    ((a <<< 12) ||| (b <<< 6)) ||| c = 4096 * a + 64 * b + c := by
  have h1 : (a <<< 12) ||| (b <<< 6) = 4096 * a + 64 * b := by
    have hlt : 2 ^ 6 * b < 2 ^ 12 := by norm_num; omega
    rw [Nat.shiftLeft_eq, Nat.shiftLeft_eq, Nat.mul_comm a, Nat.mul_comm b,
      lor_small 12 a (2 ^ 6 * b) hlt]
    norm_num
  have h2 : 4096 * a + 64 * b = 2 ^ 6 * (64 * a + b) := by ring
  rw [h1, h2, lor_small 6 (64 * a + b) c (by omega)]

lemma comb4 {a b c d : Nat} (hb : b < 64) (hc : c < 64) (hd : d < 64) :
    (((a <<< 18) ||| (b <<< 12)) ||| (c <<< 6)) ||| d =
      262144 * a + 4096 * b + 64 * c + d := by
  have h1 : (a <<< 18) ||| (b <<< 12) = 262144 * a + 4096 * b := by
    have hlt : 2 ^ 12 * b < 2 ^ 18 := by norm_num; omega
    rw [Nat.shiftLeft_eq, Nat.shiftLeft_eq, Nat.mul_comm a, Nat.mul_comm b,
      lor_small 18 a (2 ^ 12 * b) hlt]
    norm_num
  have h2 : 262144 * a + 4096 * b = 2 ^ 12 * (64 * a + b) := by ring
  have h3 : (2 ^ 12 * (64 * a + b)) ||| (c <<< 6) = 2 ^ 12 * (64 * a + b) + 2 ^ 6 * c := by
    have hlt : 2 ^ 6 * c < 2 ^ 12 := by norm_num; omega
    rw [Nat.shiftLeft_eq, Nat.mul_comm c, lor_small 12 (64 * a + b) (2 ^ 6 * c) hlt]
  have h4 : 2 ^ 12 * (64 * a + b) + 2 ^ 6 * c = 2 ^ 6 * (64 * (64 * a + b) + c) := by ring
  rw [h1, h2, h3, h4, lor_small 6 (64 * (64 * a + b) + c) d (by omega)]
  ring

/-! ### Basic decoder lemmas -/

/-- At a terminator byte the decoder returns 0 and does not move. -/
lemma utf8codepoint_terminator (s : List Nat) (h : byteAt s 0 = 0) :
    utf8codepoint s = (0, s) := by
  simp only [utf8codepoint, h, if_pos]

lemma twoOctets_advance (s : List Nat) :
    ∃ k, 1 ≤ k ∧ k ≤ 7 ∧ (utf8codepointTwoOctets s).2 = s.drop k := by
  obtain ⟨v, t, e⟩ : ∃ v t, utf8codepointTwoOctets s = (v, t) := ⟨_, _, rfl⟩
  rw [e]
  simp only [utf8codepointTwoOctets] at e
  repeat' split at e
  all_goals
    first
      | (injection e with e1 e2; exact ⟨1, by omega, by omega, e2.symm⟩)
      | (injection e with e1 e2; exact ⟨2, by omega, by omega, e2.symm⟩)

lemma threeOctets_advance (s : List Nat) :
    ∃ k, 1 ≤ k ∧ k ≤ 7 ∧ (utf8codepointThreeOctets s).2 = s.drop k := by
  obtain ⟨v, t, e⟩ : ∃ v t, utf8codepointThreeOctets s = (v, t) := ⟨_, _, rfl⟩
  rw [e]
  simp only [utf8codepointThreeOctets] at e
  repeat' split at e
  all_goals
    first
      | (injection e with e1 e2; exact ⟨1, by omega, by omega, e2.symm⟩)
      | (injection e with e1 e2; exact ⟨3, by omega, by omega, e2.symm⟩)

lemma fourOctets_advance (s : List Nat) :
    ∃ k, 1 ≤ k ∧ k ≤ 7 ∧ (utf8codepointFourOctets s).2 = s.drop k := by
  obtain ⟨v, t, e⟩ : ∃ v t, utf8codepointFourOctets s = (v, t) := ⟨_, _, rfl⟩
  rw [e]
  simp only [utf8codepointFourOctets] at e
  repeat' split at e
  all_goals
    first
      | (injection e with e1 e2; exact ⟨1, by omega, by omega, e2.symm⟩)
      | (injection e with e1 e2; exact ⟨4, by omega, by omega, e2.symm⟩)

lemma fiveOctets_advance (s : List Nat) :
    ∃ k, 1 ≤ k ∧ k ≤ 7 ∧ (utf8codepointFiveOctets s).2 = s.drop k := by
  obtain ⟨v, t, e⟩ : ∃ v t, utf8codepointFiveOctets s = (v, t) := ⟨_, _, rfl⟩
  rw [e]
  simp only [utf8codepointFiveOctets] at e
  repeat' split at e
  all_goals
    first
      | (injection e with e1 e2; exact ⟨1, by omega, by omega, e2.symm⟩)
      | (injection e with e1 e2; exact ⟨5, by omega, by omega, e2.symm⟩)

lemma sixOctets_advance (s : List Nat) :
    ∃ k, 1 ≤ k ∧ k ≤ 7 ∧ (utf8codepointSixOctets s).2 = s.drop k := by
  obtain ⟨v, t, e⟩ : ∃ v t, utf8codepointSixOctets s = (v, t) := ⟨_, _, rfl⟩
  rw [e]
  simp only [utf8codepointSixOctets] at e
  repeat' split at e
  all_goals
    first
      | (injection e with e1 e2; exact ⟨1, by omega, by omega, e2.symm⟩)
      | (injection e with e1 e2; exact ⟨7, by omega, by omega, e2.symm⟩)

/-- At a nonzero byte the decoder advances by one to seven bytes and the
new cursor is always a suffix of the old one. -/
lemma utf8codepoint_advance (s : List Nat) (h : byteAt s 0 ≠ 0) :
    ∃ k, 1 ≤ k ∧ k ≤ 7 ∧ (utf8codepoint s).2 = s.drop k := by
  simp only [utf8codepoint]
  split_ifs with h0 h1 h2 h3 h4 h5 h6
  · exact absurd h0 h
  · exact ⟨1, by omega, by omega, rfl⟩
  · exact ⟨1, by omega, by omega, rfl⟩
  · exact twoOctets_advance s
  · exact threeOctets_advance s
  · exact fourOctets_advance s
  · exact fiveOctets_advance s
  · exact sixOctets_advance s

/-- A successful (nonzero) decode consumed at least one byte of the list. -/
lemma utf8codepoint_len_lt (s : List Nat) (h : (utf8codepoint s).1 ≠ 0) :
    (utf8codepoint s).2.length < s.length := by
  have hb : byteAt s 0 ≠ 0 := by
    intro h0
    rw [utf8codepoint_terminator s h0] at h
    exact h rfl
  obtain ⟨k, hk1, _, hdrop⟩ := utf8codepoint_advance s hb
  have hnil : s ≠ [] := by
    intro e
    apply hb
    rw [e]
    rfl
  have hpos : 0 < s.length := List.length_pos.mpr hnil
  rw [hdrop, List.length_drop]
  omega

/-! ### Fuel independence: every loop finishes within src.length iterations -/

lemma ucs4Loop_fuel_indep : ∀ f1 f2 src len, src.length < f1 → src.length < f2 →
    ucs4Loop f1 src len = ucs4Loop f2 src len := by
  intro f1
  induction f1 with
  | zero => intro f2 src len h1 h2; omega
  | succ n ih =>
    intro f2 src len h1 h2
    cases f2 with
    | zero => omega
    | succ m =>
      simp only [ucs4Loop]
      by_cases h4 : 4 ≤ len
      · simp only [if_pos h4]
        by_cases hz : (utf8codepoint src).1 = 0
        · simp only [if_pos hz]
        · simp only [if_neg hz]
          have hlt := utf8codepoint_len_lt src hz
          rw [ih m (utf8codepoint src).2 (len - 4) (by omega) (by omega)]
      · simp only [if_neg h4]

lemma ucs2Loop_fuel_indep : ∀ f1 f2 src len, src.length < f1 → src.length < f2 →
    ucs2Loop f1 src len = ucs2Loop f2 src len := by
  intro f1
  induction f1 with
  | zero => intro f2 src len h1 h2; omega
  | succ n ih =>
    intro f2 src len h1 h2
    cases f2 with
    | zero => omega
    | succ m =>
      simp only [ucs2Loop]
      by_cases h4 : 2 ≤ len
      · simp only [if_pos h4]
        by_cases hz : (utf8codepoint src).1 = 0
        · simp only [if_pos hz]
        · simp only [if_neg hz]
          have hlt := utf8codepoint_len_lt src hz
          rw [ih m (utf8codepoint src).2 (len - 2) (by omega) (by omega)]
      · simp only [if_neg h4]

lemma utf16Loop_fuel_indep : ∀ f1 f2 src len, src.length < f1 → src.length < f2 →
    utf16Loop f1 src len = utf16Loop f2 src len := by
  intro f1
  induction f1 with
  | zero => intro f2 src len h1 h2; omega
  | succ n ih =>
    intro f2 src len h1 h2
    cases f2 with
    | zero => omega
    | succ m =>
      simp only [utf16Loop]
      by_cases h4 : 2 ≤ len
      · simp only [if_pos h4]
        by_cases hz : (utf8codepoint src).1 = 0
        · simp only [if_pos hz]
        · simp only [if_neg hz]
          have hlt := utf8codepoint_len_lt src hz
          rw [ih m (utf8codepoint src).2 (len - 4) (by omega) (by omega),
            ih m (utf8codepoint src).2 (len - 2) (by omega) (by omega)]
      · simp only [if_neg h4]

lemma stricmpLoop_fuel_indep (buckets : Nat → List CaseFoldMapping) :
    ∀ f1 f2 s1 s2, s1.length < f1 → s1.length < f2 →
    stricmpLoop buckets f1 s1 s2 = stricmpLoop buckets f2 s1 s2 := by
  intro f1
  induction f1 with
  | zero => intro f2 s1 s2 h1 h2; omega
  | succ n ih =>
    intro f2 s1 s2 h1 h2
    cases f2 with
    | zero => omega
    | succ m =>
      simp only [stricmpLoop]
      by_cases hrc : utf8codepointcmp buckets (utf8codepoint s1).1 (utf8codepoint s2).1 ≠ 0
      · simp only [if_pos hrc]
      · simp only [if_neg hrc]
        by_cases hz : (utf8codepoint s1).1 = 0
        · simp only [if_pos hz]
        · simp only [if_neg hz]
          have hlt := utf8codepoint_len_lt s1 hz
          rw [ih m (utf8codepoint s1).2 (utf8codepoint s2).2 (by omega) (by omega)]

/-! ### Decoder branch characterizations and encoder shapes -/

lemma fst_ite {c : Prop} [Decidable c] (p q : Nat × List Nat) :
    (if c then p else q).1 = if c then p.1 else q.1 := by
  split_ifs <;> rfl

lemma asciiOne_spec {b : Nat} (rest : List Nat) (h1 : 1 ≤ b) (h2 : b < 128) :
    utf8codepoint (b :: rest) = (b, rest) := by
  have e0 : byteAt (b :: rest) 0 = b := by
    simp only [byteAt, List.getD_cons_zero]
    omega
  simp only [utf8codepoint, e0]
  rw [if_neg (show ¬ b = 0 by omega), if_pos h2]
  rfl

lemma twoOctets_spec {b0 b1 : Nat} (rest : List Nat)
    (h0 : 192 ≤ b0) (h1 : b0 < 224) (h2 : 128 ≤ b1) (h3 : b1 < 192) :
    utf8codepoint (b0 :: b1 :: rest) =
      if 0x80 ≤ 64 * (b0 - 192) + (b1 - 128) ∧ 64 * (b0 - 192) + (b1 - 128) ≤ 0x7FF
      then (64 * (b0 - 192) + (b1 - 128), rest)
      else (UNICODE_BOGUS_CHAR_VALUE, rest) := by
  have e0 : byteAt (b0 :: b1 :: rest) 0 = b0 := by
    simp only [byteAt, List.getD_cons_zero]
    omega
  have e1 : byteAt (b0 :: b1 :: rest) 1 = b1 := by
    simp only [byteAt, List.getD_cons_succ, List.getD_cons_zero]
    omega
  have hand : b0 - (128 + 64) = b0 - 192 := by omega
  have hv : ((b0 - 192) <<< 6) ||| (b1 - 128) = 64 * (b0 - 192) + (b1 - 128) :=
    comb2 (by omega)
  have hcont : b1 &&& (128 + 64) = 128 := by
    norm_num
    exact (and192_iff b1 (by omega)).mpr ⟨h2, h3⟩
  simp only [utf8codepoint, utf8codepointTwoOctets, e0, e1, hand, hcont, hv]
  rw [if_neg (show ¬ b0 = 0 by omega), if_neg (show ¬ b0 < 128 by omega),
    if_neg (show ¬ b0 < 192 by omega), if_pos (show b0 < 224 from h1),
    if_neg (show ¬ (128 : Nat) ≠ 128 by omega)]
  simp only [List.drop_succ_cons, List.drop_zero]


lemma threeOctets_spec {b0 b1 b2 : Nat} (rest : List Nat)
    (h0 : 224 ≤ b0) (h1 : b0 < 240) (h2 : 128 ≤ b1) (h3 : b1 < 192)
    (h4 : 128 ≤ b2) (h5 : b2 < 192) :
    utf8codepoint (b0 :: b1 :: b2 :: rest) =
      (let v := 4096 * (b0 - 224) + 64 * (b1 - 128) + (b2 - 128)
       if v = 0xD800 ∨ v = 0xDB7F ∨ v = 0xDB80 ∨ v = 0xDBFF ∨
           v = 0xDC00 ∨ v = 0xDF80 ∨ v = 0xDFFF then
         (UNICODE_BOGUS_CHAR_VALUE, rest)
       else if 0x800 ≤ v ∧ v ≤ 0xFFFD then (v, rest)
       else (UNICODE_BOGUS_CHAR_VALUE, rest)) := by
  have e0 : byteAt (b0 :: b1 :: b2 :: rest) 0 = b0 := by
    simp only [byteAt, List.getD_cons_zero]
    omega
  have e1 : byteAt (b0 :: b1 :: b2 :: rest) 1 = b1 := by
    simp only [byteAt, List.getD_cons_succ, List.getD_cons_zero]
    omega
  have e2 : byteAt (b0 :: b1 :: b2 :: rest) 2 = b2 := by
    simp only [byteAt, List.getD_cons_succ, List.getD_cons_zero]
    omega
  have hand : b0 - (128 + 64 + 32) = b0 - 224 := by omega
  have hv : (((b0 - 224) <<< 12) ||| ((b1 - 128) <<< 6)) ||| (b2 - 128) =
      4096 * (b0 - 224) + 64 * (b1 - 128) + (b2 - 128) :=
    comb3 (by omega) (by omega)
  have hcont1 : b1 &&& (128 + 64) = 128 := by
    norm_num
    exact (and192_iff b1 (by omega)).mpr ⟨h2, h3⟩
  have hcont2 : b2 &&& (128 + 64) = 128 := by
    norm_num
    exact (and192_iff b2 (by omega)).mpr ⟨h4, h5⟩
  simp only [utf8codepoint, utf8codepointThreeOctets, e0, e1, e2, hand, hcont1, hcont2, hv]
  rw [if_neg (show ¬ b0 = 0 by omega), if_neg (show ¬ b0 < 128 by omega),
    if_neg (show ¬ b0 < 192 by omega), if_neg (show ¬ b0 < 224 by omega),
    if_pos (show b0 < 240 from h1),
    if_neg (show ¬ (128 : Nat) ≠ 128 by omega), if_neg (show ¬ (128 : Nat) ≠ 128 by omega)]
  simp only [List.drop_succ_cons, List.drop_zero]

lemma fourOctets_spec {b0 b1 b2 b3 : Nat} (rest : List Nat)
    (h0 : 240 ≤ b0) (h1 : b0 < 248) (h2 : 128 ≤ b1) (h3 : b1 < 192)
    (h4 : 128 ≤ b2) (h5 : b2 < 192) (h6 : 128 ≤ b3) (h7 : b3 < 192) :
    utf8codepoint (b0 :: b1 :: b2 :: b3 :: rest) =
      (let v := 262144 * (b0 - 240) + 4096 * (b1 - 128) + 64 * (b2 - 128) + (b3 - 128)
       if 0x10000 ≤ v ∧ v ≤ 0x10FFFF then (v, rest)
       else (UNICODE_BOGUS_CHAR_VALUE, rest)) := by
  have e0 : byteAt (b0 :: b1 :: b2 :: b3 :: rest) 0 = b0 := by
    simp only [byteAt, List.getD_cons_zero]
    omega
  have e1 : byteAt (b0 :: b1 :: b2 :: b3 :: rest) 1 = b1 := by
    simp only [byteAt, List.getD_cons_succ, List.getD_cons_zero]
    omega
  have e2 : byteAt (b0 :: b1 :: b2 :: b3 :: rest) 2 = b2 := by
    simp only [byteAt, List.getD_cons_succ, List.getD_cons_zero]
    omega
  have e3 : byteAt (b0 :: b1 :: b2 :: b3 :: rest) 3 = b3 := by
    simp only [byteAt, List.getD_cons_succ, List.getD_cons_zero]
    omega
  have hand : b0 - (128 + 64 + 32 + 16) = b0 - 240 := by omega
  have hv : ((((b0 - 240) <<< 18) ||| ((b1 - 128) <<< 12)) |||
      ((b2 - 128) <<< 6)) ||| (b3 - 128) =
      262144 * (b0 - 240) + 4096 * (b1 - 128) + 64 * (b2 - 128) + (b3 - 128) :=
    comb4 (by omega) (by omega) (by omega)
  have hcont1 : b1 &&& (128 + 64) = 128 := by
    norm_num
    exact (and192_iff b1 (by omega)).mpr ⟨h2, h3⟩
  have hcont2 : b2 &&& (128 + 64) = 128 := by
    norm_num
    exact (and192_iff b2 (by omega)).mpr ⟨h4, h5⟩
  have hcont3 : b3 &&& (128 + 64) = 128 := by
    norm_num
    exact (and192_iff b3 (by omega)).mpr ⟨h6, h7⟩
  simp only [utf8codepoint, utf8codepointFourOctets, e0, e1, e2, e3, hand,
    hcont1, hcont2, hcont3, hv]
  rw [if_neg (show ¬ b0 = 0 by omega), if_neg (show ¬ b0 < 128 by omega),
    if_neg (show ¬ b0 < 192 by omega), if_neg (show ¬ b0 < 224 by omega),
    if_neg (show ¬ b0 < 240 by omega), if_pos (show b0 < 248 from h1),
    if_neg (show ¬ (128 : Nat) ≠ 128 by omega), if_neg (show ¬ (128 : Nat) ≠ 128 by omega),
    if_neg (show ¬ (128 : Nat) ≠ 128 by omega)]
  simp only [List.drop_succ_cons, List.drop_zero]


lemma utf8fromcodepoint_clamp_id (cp : Nat) (hmax : cp ≤ 0x10FFFF)
    (hsur : ¬ (0xD800 ≤ cp ∧ cp ≤ 0xDFFF)) (hf1 : cp ≠ 0xFFFE) (hf2 : cp ≠ 0xFFFF) :
    (if 0x10FFFF < cp then UNICODE_BOGUS_CHAR_CODEPOINT
     else if cp = 0xFFFE ∨ cp = 0xFFFF then UNICODE_BOGUS_CHAR_CODEPOINT
     else if cp = 0xD800 ∨ cp = 0xDB7F ∨ cp = 0xDB80 ∨ cp = 0xDBFF ∨
         cp = 0xDC00 ∨ cp = 0xDF80 ∨ cp = 0xDFFF then UNICODE_BOGUS_CHAR_CODEPOINT
     else cp) = cp := by
  rw [if_neg (show ¬ 0x10FFFF < cp by omega),
    if_neg (show ¬ (cp = 0xFFFE ∨ cp = 0xFFFF) by omega),
    if_neg (show ¬ (cp = 0xD800 ∨ cp = 0xDB7F ∨ cp = 0xDB80 ∨ cp = 0xDBFF ∨
      cp = 0xDC00 ∨ cp = 0xDF80 ∨ cp = 0xDFFF) by omega)]

lemma enc_one (cp len : Nat) (h : cp < 0x80) (hl : 1 ≤ len) :
    utf8fromcodepoint cp len = ([cp], len - 1) := by
  have hc0 : cp % 2 ^ 32 = cp := Nat.mod_eq_of_lt (by omega)
  have hcl := utf8fromcodepoint_clamp_id cp (by omega) (by omega) (by omega) (by omega)
  have hm : cp % 256 = cp := Nat.mod_eq_of_lt (by omega)
  simp only [utf8fromcodepoint, hc0, hcl, hm]
  rw [if_neg (show ¬ len = 0 by omega), if_pos h]

lemma enc_two (cp len : Nat) (h1 : 0x80 ≤ cp) (h2 : cp < 0x800) (hl : 2 ≤ len) :
    utf8fromcodepoint cp len = ([192 + cp / 64, 128 + cp % 64], len - 2) := by
  have hc0 : cp % 2 ^ 32 = cp := Nat.mod_eq_of_lt (by omega)
  have hcl := utf8fromcodepoint_clamp_id cp (by omega) (by omega) (by omega) (by omega)
  have hs6 : cp >>> 6 = cp / 64 := by
    rw [Nat.shiftRight_eq_div_pow]
  have hb0 : ((cp / 64) ||| 128 ||| 64) % 256 = 192 + cp / 64 := by
    rw [or192 (by omega)]
    exact Nat.mod_eq_of_lt (by omega)
  have ha : cp &&& 63 = cp % 64 := and63 cp
  have hb1 : ((cp % 64) ||| 128) % 256 = 128 + cp % 64 := by
    rw [or128 (by omega)]
    exact Nat.mod_eq_of_lt (by omega)
  simp only [utf8fromcodepoint, hc0, hcl, hs6, ha, hb0, hb1]
  rw [if_neg (show ¬ len = 0 by omega), if_neg (show ¬ cp < 0x80 by omega),
    if_pos h2, if_neg (show ¬ len < 2 by omega)]

lemma enc_three (cp len : Nat) (h1 : 0x800 ≤ cp) (h2 : cp < 0x10000)
    (hsur : ¬ (0xD800 ≤ cp ∧ cp ≤ 0xDFFF)) (hf1 : cp ≠ 0xFFFE) (hf2 : cp ≠ 0xFFFF)
    (hl : 3 ≤ len) :
    utf8fromcodepoint cp len =
      ([224 + cp / 4096, 128 + cp / 64 % 64, 128 + cp % 64], len - 3) := by
  have hc0 : cp % 2 ^ 32 = cp := Nat.mod_eq_of_lt (by omega)
  have hcl := utf8fromcodepoint_clamp_id cp (by omega) hsur hf1 hf2
  have hs12 : cp >>> 12 = cp / 4096 := by
    rw [Nat.shiftRight_eq_div_pow]
  have hs6 : cp >>> 6 = cp / 64 := by
    rw [Nat.shiftRight_eq_div_pow]
  have hb0 : ((cp / 4096) ||| 128 ||| 64 ||| 32) % 256 = 224 + cp / 4096 := by
    rw [or224 (by omega)]
    exact Nat.mod_eq_of_lt (by omega)
  have ha1 : cp / 64 &&& 63 = cp / 64 % 64 := and63 (cp / 64)
  have hb1 : ((cp / 64 % 64) ||| 128) % 256 = 128 + cp / 64 % 64 := by
    rw [or128 (by omega)]
    exact Nat.mod_eq_of_lt (by omega)
  have ha2 : cp &&& 63 = cp % 64 := and63 cp
  have hb2 : ((cp % 64) ||| 128) % 256 = 128 + cp % 64 := by
    rw [or128 (by omega)]
    exact Nat.mod_eq_of_lt (by omega)
  simp only [utf8fromcodepoint, hc0, hcl, hs12, hs6, ha1, ha2, hb0, hb1, hb2]
  rw [if_neg (show ¬ len = 0 by omega), if_neg (show ¬ cp < 0x80 by omega),
    if_neg (show ¬ cp < 0x800 by omega), if_pos h2, if_neg (show ¬ len < 3 by omega)]

lemma enc_four (cp len : Nat) (h1 : 0x10000 ≤ cp) (h2 : cp ≤ 0x10FFFF) (hl : 4 ≤ len) :
    utf8fromcodepoint cp len =
      ([240 + cp / 262144, 128 + cp / 4096 % 64, 128 + cp / 64 % 64, 128 + cp % 64],
        len - 4) := by
  have hc0 : cp % 2 ^ 32 = cp := Nat.mod_eq_of_lt (by omega)
  have hcl := utf8fromcodepoint_clamp_id cp h2 (by omega) (by omega) (by omega)
  have hs18 : cp >>> 18 = cp / 262144 := by
    rw [Nat.shiftRight_eq_div_pow]
  have hs12 : cp >>> 12 = cp / 4096 := by
    rw [Nat.shiftRight_eq_div_pow]
  have hs6 : cp >>> 6 = cp / 64 := by
    rw [Nat.shiftRight_eq_div_pow]
  have hb0 : ((cp / 262144) ||| 128 ||| 64 ||| 32 ||| 16) % 256 = 240 + cp / 262144 := by
    rw [or240 (by omega)]
    exact Nat.mod_eq_of_lt (by omega)
  have ha1 : cp / 4096 &&& 63 = cp / 4096 % 64 := and63 (cp / 4096)
  have hb1 : ((cp / 4096 % 64) ||| 128) % 256 = 128 + cp / 4096 % 64 := by
    rw [or128 (by omega)]
    exact Nat.mod_eq_of_lt (by omega)
  have ha2 : cp / 64 &&& 63 = cp / 64 % 64 := and63 (cp / 64)
  have hb2 : ((cp / 64 % 64) ||| 128) % 256 = 128 + cp / 64 % 64 := by
    rw [or128 (by omega)]
    exact Nat.mod_eq_of_lt (by omega)
  have ha3 : cp &&& 63 = cp % 64 := and63 cp
  have hb3 : ((cp % 64) ||| 128) % 256 = 128 + cp % 64 := by
    rw [or128 (by omega)]
    exact Nat.mod_eq_of_lt (by omega)
  simp only [utf8fromcodepoint, hc0, hcl, hs18, hs12, hs6, ha1, ha2, ha3, hb0, hb1, hb2, hb3]
  rw [if_neg (show ¬ len = 0 by omega), if_neg (show ¬ cp < 0x80 by omega),
    if_neg (show ¬ cp < 0x800 by omega), if_neg (show ¬ cp < 0x10000 by omega),
    if_neg (show ¬ len < 4 by omega)]

/-! ### Case-fold comparator lemmas -/

lemma cmp_neg (buckets : Nat → List CaseFoldMapping) (cp1 cp2 : Nat) :
    utf8codepointcmp buckets cp2 cp1 = - utf8codepointcmp buckets cp1 cp2 := by
  simp only [utf8codepointcmp]
  split_ifs <;> omega

lemma cmp_range (buckets : Nat → List CaseFoldMapping) (cp1 cp2 : Nat) :
    utf8codepointcmp buckets cp1 cp2 = -1 ∨ utf8codepointcmp buckets cp1 cp2 = 0 ∨
      utf8codepointcmp buckets cp1 cp2 = 1 := by
  simp only [utf8codepointcmp]
  split_ifs <;> simp

lemma locate_fst_zero (buckets : Nat → List CaseFoldMapping)
    (hfrom : ∀ i m, m ∈ buckets i → m.fromCP ≠ 0) :
    (locate_case_fold_mapping buckets 0).1 = 0 := by
  simp only [locate_case_fold_mapping]
  have hnone : (buckets ((0 ^^^ (0 >>> 8)) &&& 0xFF)).find? (fun m => m.fromCP = 0) =
      none := by
    rw [List.find?_eq_none]
    intro m hm
    simpa using hfrom _ m hm
  rw [hnone]

lemma locate_fst_ne_zero (buckets : Nat → List CaseFoldMapping)
    (hto : ∀ i m, m ∈ buckets i → m.to0 ≠ 0) (cp : Nat) (hcp : cp ≠ 0) :
    (locate_case_fold_mapping buckets cp).1 ≠ 0 := by
  simp only [locate_case_fold_mapping]
  cases hfind : (buckets ((cp ^^^ (cp >>> 8)) &&& 0xFF)).find? (fun m => m.fromCP = cp) with
  | none => exact hcp
  | some m => exact hto _ m (List.mem_of_find?_eq_some hfind)

lemma cmp_zero_iff (buckets : Nat → List CaseFoldMapping)
    (hfrom : ∀ i m, m ∈ buckets i → m.fromCP ≠ 0)
    (hto : ∀ i m, m ∈ buckets i → m.to0 ≠ 0) (cp1 cp2 : Nat)
    (hrc : utf8codepointcmp buckets cp1 cp2 = 0) : (cp1 = 0 ↔ cp2 = 0) := by
  by_cases heq : cp1 = cp2
  · subst heq
    exact Iff.rfl
  · constructor
    · intro h1
      by_contra h2
      subst h1
      have hf1 := locate_fst_zero buckets hfrom
      have hf2 := locate_fst_ne_zero buckets hto cp2 h2
      simp only [utf8codepointcmp, if_neg heq] at hrc
      split_ifs at hrc <;> omega
    · intro h2
      by_contra h1
      subst h2
      have hf1 := locate_fst_zero buckets hfrom
      have hf2 := locate_fst_ne_zero buckets hto cp1 h1
      simp only [utf8codepointcmp, if_neg heq] at hrc
      split_ifs at hrc <;> omega

lemma stricmpLoop_antisym (buckets : Nat → List CaseFoldMapping)
    (hfrom : ∀ i m, m ∈ buckets i → m.fromCP ≠ 0)
    (hto : ∀ i m, m ∈ buckets i → m.to0 ≠ 0) :
    ∀ f1 f2 s1 s2, s1.length < f1 → s2.length < f2 →
      stricmpLoop buckets f2 s2 s1 = - stricmpLoop buckets f1 s1 s2 := by
  intro f1
  induction f1 with
  | zero => intro f2 s1 s2 h1 h2; omega
  | succ n ih =>
    intro f2 s1 s2 h1 h2
    cases f2 with
    | zero => omega
    | succ m =>
      simp only [stricmpLoop]
      have hneg := cmp_neg buckets (utf8codepoint s1).1 (utf8codepoint s2).1
      by_cases hrc : utf8codepointcmp buckets (utf8codepoint s1).1 (utf8codepoint s2).1 = 0
      · have hrc2 : utf8codepointcmp buckets (utf8codepoint s2).1 (utf8codepoint s1).1 = 0 := by
          rw [hneg, hrc]
          rfl
        rw [if_neg (show ¬ utf8codepointcmp buckets (utf8codepoint s2).1
            (utf8codepoint s1).1 ≠ 0 by simp [hrc2]),
          if_neg (show ¬ utf8codepointcmp buckets (utf8codepoint s1).1
            (utf8codepoint s2).1 ≠ 0 by simp [hrc])]
        have hiff := cmp_zero_iff buckets hfrom hto _ _ hrc
        by_cases hz : (utf8codepoint s1).1 = 0
        · rw [if_pos (hiff.mp hz), if_pos hz]
          rfl
        · have hz2 : (utf8codepoint s2).1 ≠ 0 := fun hzz => hz (hiff.mpr hzz)
          rw [if_neg hz2, if_neg hz]
          have hl1 := utf8codepoint_len_lt s1 hz
          have hl2 := utf8codepoint_len_lt s2 hz2
          exact ih m (utf8codepoint s1).2 (utf8codepoint s2).2 (by omega) (by omega)
      · have hrc2 : utf8codepointcmp buckets (utf8codepoint s2).1 (utf8codepoint s1).1 ≠ 0 := by
          rw [hneg]
          simp [hrc]
        rw [if_pos hrc2, if_pos hrc]
        exact hneg

lemma stricmpLoop_range (buckets : Nat → List CaseFoldMapping) :
    ∀ f s1 s2, stricmpLoop buckets f s1 s2 = -1 ∨ stricmpLoop buckets f s1 s2 = 0 ∨
      stricmpLoop buckets f s1 s2 = 1 := by
  intro f
  induction f with
  | zero =>
    intro s1 s2
    right
    left
    rfl
  | succ n ih =>
    intro s1 s2
    simp only [stricmpLoop]
    split_ifs with hrc hz
    · exact cmp_range buckets _ _
    · right
      left
      rfl
    · exact ih _ _

lemma asciiEntries_props : ∀ m ∈ asciiEntries, m.fromCP ≠ 0 ∧ m.to0 ≠ 0 := by decide

lemma asciiFoldBuckets_from (i : Nat) (m : CaseFoldMapping)
    (hm : m ∈ asciiFoldBuckets i) : m.fromCP ≠ 0 :=
  (asciiEntries_props m (List.mem_filter.mp hm).1).1

lemma asciiFoldBuckets_to0 (i : Nat) (m : CaseFoldMapping)
    (hm : m ∈ asciiFoldBuckets i) : m.to0 ≠ 0 :=
  (asciiEntries_props m (List.mem_filter.mp hm).1).2

/-! ### Claim theorems -/

/-- C10: when the cursor points at a zero byte the decoder returns 0 and
leaves the cursor unchanged, so repeated decoding at the end of a string
keeps returning 0 from the same position. -/
theorem claim_C10_terminator (s : List Nat) (h : byteAt s 0 = 0) :
    utf8codepoint s = (0, s) :=
  utf8codepoint_terminator s h

theorem claim_C10_terminator_witness :
    byteAt [0, 65] 0 = 0 ∧ utf8codepoint [0, 65] = (0, [0, 65]) :=
  ⟨by decide, claim_C10_terminator [0, 65] (by decide)⟩

/-- C1: with destination capacity 0 the four UTF-8-producing transcoders
write nothing at all, but the three UTF-8-consuming ones do write: their
initial len -= element size wraps around at 2^64, the loop runs, and the
decoded element plus a terminating zero are stored into the zero-capacity
buffer; on source "A" each writes the element 65 and then 0. -/
theorem claim_C1_zero_capacity :
    PHYSFS_utf8ToUcs4 [65] 0 = [65, 0] ∧
    PHYSFS_utf8ToUcs2 [65] 0 = [65, 0] ∧
    PHYSFS_utf8ToUtf16 [65] 0 = [65, 0] ∧
    PHYSFS_utf8FromUcs4 [65] 0 = [] ∧
    PHYSFS_utf8FromUcs2 [65] 0 = [] ∧
    PHYSFS_utf8FromLatin1 [65] 0 = [] ∧
    PHYSFS_utf8FromUtf16 [65] 0 = [] := by
  refine ⟨?_, ?_, ?_, by decide, by decide, by decide, by decide⟩ <;> decide

/-- C2 counterexample: the well-formed three-byte encoding EF BF BE of
0xFFFE does not decode to 0xFFFE; the decoder's upper range check stops at
0xFFFD, so it yields the bogus sentinel instead. -/
theorem claim_C2_counterexample :
    (utf8codepoint [0xEF, 0xBF, 0xBE]).1 ≠ 0xFFFE := by decide

/-- C2 amended: the decoder rejects 0xFFFE and 0xFFFF (both decode to the
bogus sentinel, cursor advanced past the full three-byte form), and the
encoder also replaces both with the placeholder; the two sides agree, so
there is no decode/encode asymmetry for these two values. -/
theorem claim_C2_amended :
    utf8codepoint [0xEF, 0xBF, 0xBE] = (UNICODE_BOGUS_CHAR_VALUE, []) ∧
    utf8codepoint [0xEF, 0xBF, 0xBF] = (UNICODE_BOGUS_CHAR_VALUE, []) ∧
    utf8fromcodepoint 0xFFFE 16 = ([0x3F], 15) ∧
    utf8fromcodepoint 0xFFFF 16 = ([0x3F], 15) := by decide

/-- C4: a five-octet form with valid continuations advances exactly 5
bytes, but a six-octet form advances 7, not 6: the source increments the
cursor once on entry and then adds 6 more, so the byte 0x41 after the
six-byte sequence is skipped as well. -/
theorem claim_C4_obsolete_forms :
    utf8codepoint [0xF8, 0x80, 0x80, 0x80, 0x80, 0x41] =
      (UNICODE_BOGUS_CHAR_VALUE, [0x41]) ∧
    utf8codepoint [0xFC, 0x80, 0x80, 0x80, 0x80, 0x80, 0x41] =
      (UNICODE_BOGUS_CHAR_VALUE, []) := by decide

/-- C9 counterexample: after a well-formed six-octet form the cursor does
not stop at the sequence end (6 bytes); it lands one byte further, so the
new cursor is empty where drop 6 still holds the trailing byte. -/
theorem claim_C9_counterexample :
    (utf8codepoint [0xFD, 0x80, 0x80, 0x80, 0x80, 0x80, 0x42]).2 = [] ∧
    [0xFD, 0x80, 0x80, 0x80, 0x80, 0x80, 0x42].drop 6 = [0x42] := by decide

/-- C9 corrected: at a nonzero byte the decoder always advances, by one
to seven bytes, and the new cursor is a suffix of the old one (it never
retreats); the upper bound is 7 rather than the length of the sequence
examined, because the six-octet branch advances one byte past its six
bytes. Consequently the comparator loop and the three UTF-8-source
transcoder loops finish within src.length iterations: their results do
not depend on the fuel once it exceeds the source length. -/
theorem claim_C9_amended :
    (∀ s : List Nat, byteAt s 0 ≠ 0 →
       ∃ k, 1 ≤ k ∧ k ≤ 7 ∧ (utf8codepoint s).2 = s.drop k) ∧
    (∀ (buckets : Nat → List CaseFoldMapping) f1 f2 (s1 s2 : List Nat),
       s1.length < f1 → s1.length < f2 →
       stricmpLoop buckets f1 s1 s2 = stricmpLoop buckets f2 s1 s2) ∧
    (∀ f1 f2 src len, src.length < f1 → src.length < f2 →
       ucs4Loop f1 src len = ucs4Loop f2 src len) ∧
    (∀ f1 f2 src len, src.length < f1 → src.length < f2 →
       ucs2Loop f1 src len = ucs2Loop f2 src len) ∧
    (∀ f1 f2 src len, src.length < f1 → src.length < f2 →
       utf16Loop f1 src len = utf16Loop f2 src len) :=
  ⟨utf8codepoint_advance, fun buckets => stricmpLoop_fuel_indep buckets,
    ucs4Loop_fuel_indep, ucs2Loop_fuel_indep, utf16Loop_fuel_indep⟩

theorem claim_C9_amended_witness :
    (byteAt [0xC3, 0xA9] 0 ≠ 0 ∧
      ∃ k, 1 ≤ k ∧ k ≤ 7 ∧ (utf8codepoint [0xC3, 0xA9]).2 = [0xC3, 0xA9].drop k) ∧
    stricmpLoop asciiFoldBuckets 3 [0x41] [0x61] =
      stricmpLoop asciiFoldBuckets 9 [0x41] [0x61] ∧
    ucs4Loop 2 [0x41] 64 = ucs4Loop 5 [0x41] 64 ∧
    ucs2Loop 2 [0x41] 64 = ucs2Loop 5 [0x41] 64 ∧
    utf16Loop 2 [0x41] 64 = utf16Loop 5 [0x41] 64 :=
  ⟨⟨by decide, claim_C9_amended.1 [0xC3, 0xA9] (by decide)⟩,
    claim_C9_amended.2.1 asciiFoldBuckets 3 9 [0x41] [0x61] (by decide) (by decide),
    claim_C9_amended.2.2.1 2 5 [0x41] 64 (by decide) (by decide),
    claim_C9_amended.2.2.2.1 2 5 [0x41] 64 (by decide) (by decide),
    claim_C9_amended.2.2.2.2 2 5 [0x41] 64 (by decide) (by decide)⟩

/-- C5: encode then decode is the identity on every scalar value outside
the surrogate range and distinct from 0xFFFE/0xFFFF, provided the
destination holds the encoded width plus the terminator slot. -/
theorem claim_C5_roundtrip (cp len : Nat) (hmax : cp ≤ 0x10FFFF)
    (hsur : ¬ (0xD800 ≤ cp ∧ cp ≤ 0xDFFF)) (hf1 : cp ≠ 0xFFFE) (hf2 : cp ≠ 0xFFFF)
    (hlen : utf8EncodedWidth cp + 1 ≤ len) :
    (utf8codepoint (utf8fromcodepoint cp len).1).1 = cp := by
  simp only [utf8EncodedWidth] at hlen
  by_cases hA : cp < 0x80
  · rw [if_pos hA] at hlen
    rw [enc_one cp len hA (by omega)]
    by_cases hz : cp = 0
    · subst hz
      rfl
    · rw [asciiOne_spec [] (by omega) (by omega)]
  · rw [if_neg hA] at hlen
    by_cases hB : cp < 0x800
    · rw [if_pos hB] at hlen
      rw [enc_two cp len (by omega) hB (by omega)]
      rw [twoOctets_spec [] (by omega) (by omega) (by omega) (by omega)]
      rw [fst_ite]
      split_ifs with hc
      · omega
      · omega
    · rw [if_neg hB] at hlen
      by_cases hC : cp < 0x10000
      · rw [if_pos hC] at hlen
        rw [enc_three cp len (by omega) hC hsur hf1 hf2 (by omega)]
        rw [threeOctets_spec [] (by omega) (by omega) (by omega) (by omega) (by omega)
          (by omega)]
        simp only [fst_ite]
        split_ifs with hs hr
        · omega
        · omega
        · omega
      · rw [if_neg hC] at hlen
        rw [enc_four cp len (by omega) hmax (by omega)]
        rw [fourOctets_spec [] (by omega) (by omega) (by omega) (by omega) (by omega)
          (by omega) (by omega) (by omega)]
        rw [fst_ite]
        split_ifs with hc
        · omega
        · omega


theorem claim_C5_roundtrip_witness :
    (utf8codepoint (utf8fromcodepoint 0x1F600 5).1).1 = 0x1F600 :=
  claim_C5_roundtrip 0x1F600 5 (by decide) (by decide) (by decide) (by decide) (by decide)

/-- C7: every overlong multi-byte sequence (decoded value below the
canonical range of its length) decodes to the bogus sentinel with the
cursor advanced past the whole sequence; in particular C0 80, the
overlong NUL, yields the sentinel with the cursor advanced 2 bytes, and
transcoding it to UCS-4 produces exactly one codepoint, the placeholder. -/
theorem claim_C7_overlong :
    (∀ b0 b1 : Nat, ∀ rest : List Nat, 192 ≤ b0 → b0 < 224 → 128 ≤ b1 → b1 < 192 →
       64 * (b0 - 192) + (b1 - 128) < 0x80 →
       utf8codepoint (b0 :: b1 :: rest) = (UNICODE_BOGUS_CHAR_VALUE, rest)) ∧
    (∀ b0 b1 b2 : Nat, ∀ rest : List Nat, 224 ≤ b0 → b0 < 240 → 128 ≤ b1 → b1 < 192 →
       128 ≤ b2 → b2 < 192 →
       4096 * (b0 - 224) + 64 * (b1 - 128) + (b2 - 128) < 0x800 →
       utf8codepoint (b0 :: b1 :: b2 :: rest) = (UNICODE_BOGUS_CHAR_VALUE, rest)) ∧
    (∀ b0 b1 b2 b3 : Nat, ∀ rest : List Nat, 240 ≤ b0 → b0 < 248 → 128 ≤ b1 → b1 < 192 →
       128 ≤ b2 → b2 < 192 → 128 ≤ b3 → b3 < 192 →
       262144 * (b0 - 240) + 4096 * (b1 - 128) + 64 * (b2 - 128) + (b3 - 128) < 0x10000 →
       utf8codepoint (b0 :: b1 :: b2 :: b3 :: rest) = (UNICODE_BOGUS_CHAR_VALUE, rest)) ∧
    utf8codepoint [0xC0, 0x80] = (UNICODE_BOGUS_CHAR_VALUE, []) ∧
    PHYSFS_utf8ToUcs4 [0xC0, 0x80] 64 = [UNICODE_BOGUS_CHAR_CODEPOINT, 0] := by
  refine ⟨?_, ?_, ?_, by decide, by decide⟩
  · intro b0 b1 rest h0 h1 h2 h3 hover
    rw [twoOctets_spec rest h0 h1 h2 h3]
    split_ifs with hc
    · exact absurd hc (by omega)
    · rfl
  · intro b0 b1 b2 rest h0 h1 h2 h3 h4 h5 hover
    rw [threeOctets_spec rest h0 h1 h2 h3 h4 h5]
    simp only []
    split_ifs with hs hr
    · rfl
    · exact absurd hr (by omega)
    · rfl
  · intro b0 b1 b2 b3 rest h0 h1 h2 h3 h4 h5 h6 h7 hover
    rw [fourOctets_spec rest h0 h1 h2 h3 h4 h5 h6 h7]
    simp only []
    split_ifs with hc
    · exact absurd hc (by omega)
    · rfl

theorem claim_C7_overlong_witness :
    utf8codepoint [0xC1, 0x81] = (UNICODE_BOGUS_CHAR_VALUE, []) ∧
    utf8codepoint [0xE0, 0x81, 0x81] = (UNICODE_BOGUS_CHAR_VALUE, []) ∧
    utf8codepoint [0xF0, 0x80, 0x81, 0x81] = (UNICODE_BOGUS_CHAR_VALUE, []) :=
  ⟨claim_C7_overlong.1 0xC1 0x81 [] (by decide) (by decide) (by decide) (by decide)
      (by decide),
    claim_C7_overlong.2.1 0xE0 0x81 0x81 [] (by decide) (by decide) (by decide)
      (by decide) (by decide) (by decide) (by decide),
    claim_C7_overlong.2.2.1 0xF0 0x80 0x81 0x81 [] (by decide) (by decide) (by decide)
      (by decide) (by decide) (by decide) (by decide) (by decide) (by decide)⟩


/-- C6: in the UTF-16 to UTF-8 transcoder, a high surrogate followed by a
valid low surrogate consumes both elements and encodes the combination
((high - 0xD800) << 10) | (low - 0xDC00); a high surrogate followed by
anything else consumes only the high surrogate and encodes the
placeholder, without consuming the peeked element; a lone low surrogate
likewise becomes the placeholder; and the source D800 0041 0000
transcodes to the bytes of "?A". -/
theorem claim_C6_surrogates :
    (∀ fuel len h l : Nat, ∀ rest : List Nat, len ≠ 0 →
       0xD800 ≤ h → h ≤ 0xDBFF → 0xDC00 ≤ l → l ≤ 0xDFFF →
       fromUtf16Loop (fuel + 1) (h :: l :: rest) len =
         (utf8fromcodepoint (((h - 0xD800) <<< 10) ||| (l - 0xDC00)) len).1 ++
           fromUtf16Loop fuel rest
             (utf8fromcodepoint (((h - 0xD800) <<< 10) ||| (l - 0xDC00)) len).2) ∧
    (∀ fuel len h : Nat, ∀ rest : List Nat, len ≠ 0 →
       0xD800 ≤ h → h ≤ 0xDBFF →
       ¬ (0xDC00 ≤ rest.headD 0 % 2 ^ 16 ∧ rest.headD 0 % 2 ^ 16 ≤ 0xDFFF) →
       fromUtf16Loop (fuel + 1) (h :: rest) len =
         (utf8fromcodepoint UNICODE_BOGUS_CHAR_CODEPOINT len).1 ++
           fromUtf16Loop fuel rest
             (utf8fromcodepoint UNICODE_BOGUS_CHAR_CODEPOINT len).2) ∧
    (∀ fuel len l : Nat, ∀ rest : List Nat, len ≠ 0 →
       0xDC00 ≤ l → l ≤ 0xDFFF →
       fromUtf16Loop (fuel + 1) (l :: rest) len =
         (utf8fromcodepoint UNICODE_BOGUS_CHAR_CODEPOINT len).1 ++
           fromUtf16Loop fuel rest
             (utf8fromcodepoint UNICODE_BOGUS_CHAR_CODEPOINT len).2) ∧
    PHYSFS_utf8FromUtf16 [0xD800, 0x41, 0] 64 = [0x3F, 0x41, 0] := by
  refine ⟨?_, ?_, ?_, by decide⟩
  · intro fuel len h l rest hlen hh1 hh2 hl1 hl2
    have hmodh : h % 2 ^ 16 = h := Nat.mod_eq_of_lt (by omega)
    have hmodl : l % 2 ^ 16 = l := Nat.mod_eq_of_lt (by omega)
    simp only [fromUtf16Loop, List.headD_cons, List.tail_cons, hmodh, hmodl]
    rw [if_neg hlen, if_neg (show ¬ h = 0 by omega),
      if_neg (show ¬ (0xDC00 ≤ h ∧ h ≤ 0xDFFF) by omega),
      if_pos (show 0xD800 ≤ h ∧ h ≤ 0xDBFF from ⟨hh1, hh2⟩),
      if_neg (show ¬ (l < 0xDC00 ∨ 0xDFFF < l) by omega)]
  · intro fuel len h rest hlen hh1 hh2 hpair
    have hmodh : h % 2 ^ 16 = h := Nat.mod_eq_of_lt (by omega)
    simp only [fromUtf16Loop, hmodh]
    rw [if_neg hlen, if_neg (show ¬ h = 0 by omega),
      if_neg (show ¬ (0xDC00 ≤ h ∧ h ≤ 0xDFFF) by omega),
      if_pos (show 0xD800 ≤ h ∧ h ≤ 0xDBFF from ⟨hh1, hh2⟩),
      if_pos (show rest.headD 0 % 2 ^ 16 < 0xDC00 ∨ 0xDFFF < rest.headD 0 % 2 ^ 16
        by omega)]
  · intro fuel len l rest hlen hl1 hl2
    have hmodl : l % 2 ^ 16 = l := Nat.mod_eq_of_lt (by omega)
    simp only [fromUtf16Loop, hmodl]
    rw [if_neg hlen, if_neg (show ¬ l = 0 by omega),
      if_pos (show 0xDC00 ≤ l ∧ l ≤ 0xDFFF from ⟨hl1, hl2⟩)]

theorem claim_C6_surrogates_witness :
    fromUtf16Loop 2 [0xD800, 0xDC00] 63 =
      (utf8fromcodepoint (((0xD800 - 0xD800) <<< 10) ||| (0xDC00 - 0xDC00)) 63).1 ++
        fromUtf16Loop 1 []
          (utf8fromcodepoint (((0xD800 - 0xD800) <<< 10) ||| (0xDC00 - 0xDC00)) 63).2 :=
  claim_C6_surrogates.1 1 63 0xD800 0xDC00 [] (by decide) (by decide) (by decide)
    (by decide) (by decide)

/-- C8: sign antisymmetry of the case-insensitive comparator, for every
case-fold table whose entries map nonzero codepoints to nonzero first
fold codepoints, and boundedness of the result to -1, 0, 1. -/
theorem claim_C8_antisymmetry (buckets : Nat → List CaseFoldMapping)
    (hfrom : ∀ i m, m ∈ buckets i → m.fromCP ≠ 0)
    (hto : ∀ i m, m ∈ buckets i → m.to0 ≠ 0) (a b : List Nat) :
    utf8stricmp buckets b a = - utf8stricmp buckets a b ∧
    (utf8stricmp buckets a b = -1 ∨ utf8stricmp buckets a b = 0 ∨
      utf8stricmp buckets a b = 1) :=
  ⟨stricmpLoop_antisym buckets hfrom hto (a.length + 1) (b.length + 1) a b
      (by omega) (by omega),
    stricmpLoop_range buckets (a.length + 1) a b⟩

theorem claim_C8_antisymmetry_witness :
    utf8stricmp asciiFoldBuckets [0x61] [0x41] =
      - utf8stricmp asciiFoldBuckets [0x41] [0x61] ∧
    (utf8stricmp asciiFoldBuckets [0x41] [0x61] = -1 ∨
      utf8stricmp asciiFoldBuckets [0x41] [0x61] = 0 ∨
      utf8stricmp asciiFoldBuckets [0x41] [0x61] = 1) :=
  claim_C8_antisymmetry asciiFoldBuckets asciiFoldBuckets_from asciiFoldBuckets_to0
    [0x41] [0x61]


/-- Values reduced mod 2^16 can never be the bogus sentinel. -/
lemma mod_2pow16_ne_bogus (y : Nat) : y % 2 ^ 16 ≠ UNICODE_BOGUS_CHAR_VALUE := by
  intro h
  have hlt := Nat.mod_lt y (show 0 < 2 ^ 16 by norm_num)
  rw [h] at hlt
  simp only [UNICODE_BOGUS_CHAR_VALUE] at hlt
  omega

/-- A surrogate-pair half (base plus 10 masked bits) is never the bogus
sentinel. -/
lemma surrogate_ne_bogus (base y : Nat) (hb : base ≤ 0xDC00) :
    base + (y &&& 0x3FF) ≠ UNICODE_BOGUS_CHAR_VALUE := by
  rw [and1023]
  intro h
  have h2 : y % 1024 < 1024 := Nat.mod_lt y (by norm_num)
  simp only [UNICODE_BOGUS_CHAR_VALUE] at h
  omega

lemma ucs4Loop_not_bogus : ∀ fuel src len x, x ∈ ucs4Loop fuel src len →
    x ≠ UNICODE_BOGUS_CHAR_VALUE := by
  intro fuel
  induction fuel with
  | zero =>
    intro src len x hx
    simp [ucs4Loop] at hx
  | succ n ih =>
    intro src len x hx
    simp only [ucs4Loop] at hx
    by_cases h4 : 4 ≤ len
    · rw [if_pos h4] at hx
      by_cases hz : (utf8codepoint src).1 = 0
      · rw [if_pos hz] at hx
        simp at hx
      · rw [if_neg hz] at hx
        rcases List.mem_cons.mp hx with he | ht
        · rw [he]
          by_cases hbog : (utf8codepoint src).1 = UNICODE_BOGUS_CHAR_VALUE
          · rw [if_pos hbog]
            decide
          · rw [if_neg hbog]
            exact hbog
        · exact ih _ _ _ ht
    · rw [if_neg h4] at hx
      simp at hx

lemma ucs2Loop_not_bogus : ∀ fuel src len x, x ∈ ucs2Loop fuel src len →
    x ≠ UNICODE_BOGUS_CHAR_VALUE := by
  intro fuel
  induction fuel with
  | zero =>
    intro src len x hx
    simp [ucs2Loop] at hx
  | succ n ih =>
    intro src len x hx
    simp only [ucs2Loop] at hx
    by_cases h4 : 2 ≤ len
    · rw [if_pos h4] at hx
      by_cases hz : (utf8codepoint src).1 = 0
      · rw [if_pos hz] at hx
        simp at hx
      · rw [if_neg hz] at hx
        rcases List.mem_cons.mp hx with he | ht
        · rw [he]
          exact mod_2pow16_ne_bogus _
        · exact ih _ _ _ ht
    · rw [if_neg h4] at hx
      simp at hx

lemma utf16Loop_not_bogus : ∀ fuel src len x, x ∈ utf16Loop fuel src len →
    x ≠ UNICODE_BOGUS_CHAR_VALUE := by
  intro fuel
  induction fuel with
  | zero =>
    intro src len x hx
    simp [utf16Loop] at hx
  | succ n ih =>
    intro src len x hx
    simp only [utf16Loop] at hx
    by_cases h4 : 2 ≤ len
    · rw [if_pos h4] at hx
      by_cases hz : (utf8codepoint src).1 = 0
      · rw [if_pos hz] at hx
        simp at hx
      · rw [if_neg hz] at hx
        generalize hcp : (if (utf8codepoint src).1 = UNICODE_BOGUS_CHAR_VALUE
          then UNICODE_BOGUS_CHAR_CODEPOINT else (utf8codepoint src).1) = cp at hx
        by_cases hhi : 0xFFFF < cp
        · rw [if_pos hhi] at hx
          by_cases hroom : len < 4
          · rw [if_pos hroom] at hx
            simp at hx
          · rw [if_neg hroom] at hx
            rcases List.mem_cons.mp hx with he | hx2
            · rw [he]
              exact surrogate_ne_bogus 0xD800 _ (by omega)
            · rcases List.mem_cons.mp hx2 with he | ht
              · rw [he]
                exact surrogate_ne_bogus 0xDC00 _ (by omega)
              · exact ih _ _ _ ht
        · rw [if_neg hhi] at hx
          rcases List.mem_cons.mp hx with he | ht
          · rw [he]
            intro hbad
            rw [hbad] at hhi
            simp only [UNICODE_BOGUS_CHAR_VALUE] at hhi
            omega
          · exact ih _ _ _ ht
    · rw [if_neg h4] at hx
      simp at hx

/-- C3 counterexample: the comparator does not replace a decoded bogus
sentinel with the placeholder before comparing; the malformed string
C0 80 (which decodes to the sentinel) compares greater than the one-byte
string containing the placeholder itself, whereas the replace-then-compare
behaviour the claim describes would make them equal. -/
theorem claim_C3_counterexample :
    utf8stricmp asciiFoldBuckets [0xC0, 0x80] [0x3F] = 1 ∧
    utf8stricmpReplacing asciiFoldBuckets [0xC0, 0x80] [0x3F] = 0 := by
  constructor
  · decide
  · decide

/-- C3 amended: the bogus sentinel never reaches a transcoder output --
every element a UTF-8-source transcoder writes differs from it, the
decoded sentinel having been replaced by the placeholder first -- but the
case-insensitive comparators pass the decoded sentinel to the fold
comparator unreplaced, so a malformed sequence compares like the raw
sentinel value 0xFFFFFFFF (here: greater than the placeholder), not like
the placeholder. -/
theorem claim_C3_amended :
    (∀ src len x, x ∈ PHYSFS_utf8ToUcs4 src len → x ≠ UNICODE_BOGUS_CHAR_VALUE) ∧
    (∀ src len x, x ∈ PHYSFS_utf8ToUcs2 src len → x ≠ UNICODE_BOGUS_CHAR_VALUE) ∧
    (∀ src len x, x ∈ PHYSFS_utf8ToUtf16 src len → x ≠ UNICODE_BOGUS_CHAR_VALUE) ∧
    utf8stricmp asciiFoldBuckets [0xC0, 0x80] [0x3F] = 1 ∧
    utf8strnicmp asciiFoldBuckets [0xC0, 0x80] [0x3F] 1 = 1 := by
  refine ⟨?_, ?_, ?_, by decide, by decide⟩
  · intro src len x hx
    rcases List.mem_append.mp hx with hm | hm
    · exact ucs4Loop_not_bogus _ _ _ _ hm
    · rw [List.mem_singleton.mp hm]
      decide
  · intro src len x hx
    rcases List.mem_append.mp hx with hm | hm
    · exact ucs2Loop_not_bogus _ _ _ _ hm
    · rw [List.mem_singleton.mp hm]
      decide
  · intro src len x hx
    rcases List.mem_append.mp hx with hm | hm
    · exact utf16Loop_not_bogus _ _ _ _ hm
    · rw [List.mem_singleton.mp hm]
      decide

theorem claim_C3_amended_witness :
    0x3F ∈ PHYSFS_utf8ToUcs4 [0xC0, 0x80] 64 ∧
    (0x3F : Nat) ≠ UNICODE_BOGUS_CHAR_VALUE :=
  ⟨by decide, claim_C3_amended.1 [0xC0, 0x80] 64 0x3F (by decide)⟩

end Physfs
